import Mathlib

/-!
Shallow embedding of `src/nse_backend.py` (NSE data backend server).

Conventions of the embedding:
* Python strings are modelled as `List Char` (obtained from Lean string
  literals via `.data`), so that the string operations the code performs
  (`str.upper`, `str.endswith`, substring membership `in`, concatenation)
  are kernel-computable.
* Python floats (prices, `time.time()` timestamps) are modelled as exact
  rationals `ℚ`.  `round(x, 2)` is modelled by `round2` below; Python's
  float rounding resolves ties to even while `round` on `ℚ` resolves ties
  upward, a discrepancy only visible on exact ties of the third decimal,
  which no property here depends on.
* The single Python dict `cache` is untyped; it is modelled as a map from
  keys to optional (value, timestamp) pairs, instantiated per value type
  (quotes for per-stock keys, responses for per-view keys).
* Fallible code (`None` returns, swallowed exceptions) is modelled with
  `Option` / `Except`.  The `yfinance` provider is an opaque input:
  `Except Unit ProviderData`, where `.error` stands for a raised exception
  and the `history` list models the rows of the 1-day price history frame
  (all pandas columns of one frame share its rows, so they are empty
  exactly when the frame is).
* Concurrency (`ThreadPoolExecutor`, `as_completed`) is modelled
  functionally: the fan-out collects the successful results; completion
  order is nondeterministic in the source and no property below depends
  on the order in which results are collected.
-/

/-- Python strings as lists of characters. -/
abbrev Str := List Char

/-- Model of `str.upper` on a single character (ASCII range, which covers
every symbol and query in the program's data). -/
def upChar (c : Char) : Char :=
  if 97 ≤ c.toNat ∧ c.toNat ≤ 122 then Char.ofNat (c.toNat - 32) else c

/-- Model of Python `str.upper`. -/
def pyUpper (s : Str) : Str := s.map upChar

/-- Model of Python list/str equality-test helper: does `h` start with `n`? -/
def startsWithL : Str → Str → Bool
  | [], _ => true
  | _ :: _, [] => false
  | a :: n, b :: h => a == b && startsWithL (n) (h)

/-- Model of the Python substring test `n in h`. -/
def substrIn (n : Str) : Str → Bool
  | [] => n.isEmpty
  | b :: t => startsWithL n (b :: t) || substrIn n t

/-- Model of Python `str.endswith`. -/
def pyEndsWith (s suf : Str) : Bool := List.isSuffixOf suf s

/-! ### Cache (`CACHE_TTL`, `cache`, `get_cached`, `set_cached`) -/

/-- `CACHE_TTL = 60  # seconds` -/
def CACHE_TTL : ℚ := 60

/-- The cache dict: key to optional `(data, timestamp)` pair. -/
def Cache (α : Type) : Type := Str → Option (α × ℚ)

/-- An empty cache (the module-level `cache = {}`). -/
def emptyCache {α : Type} : Cache α := fun _ => none

/-- `get_cached(key)`: return the cached value if present and not expired. -/
def get_cached {α : Type} (c : Cache α) (key : Str) (now : ℚ) : Option α :=
  match c key with
  | some (data, timestamp) => if now - timestamp < CACHE_TTL then some data else none
  | none => none

/-- `set_cached(key, data)`: store data with the current timestamp. -/
def set_cached {α : Type} (c : Cache α) (key : Str) (data : α) (now : ℚ) : Cache α :=
  fun k => if k = key then some (data, now) else c k

/-! ### Static data (`NSE_INDICES`, `NIFTY_50_STOCKS`) -/

/-- `NSE_INDICES`: index name to Yahoo Finance symbol (insertion order). -/
def NSE_INDICES : List (Str × Str) :=
  [("NIFTY 50".data, "^NSEI".data),
   ("SENSEX".data, "^BSESN".data),
   ("BANK NIFTY".data, "^NSEBANK".data),
   ("NIFTY IT".data, "^CNXIT".data),
   ("NIFTY PHARMA".data, "^CNXPHARMA".data),
   ("NIFTY AUTO".data, "^CNXAUTO".data)]

/-- `NIFTY_50_STOCKS`: the master symbol list. -/
def NIFTY_50_STOCKS : List Str :=
  ["RELIANCE.NS".data, "TCS.NS".data, "HDFCBANK.NS".data, "INFY.NS".data,
   "ICICIBANK.NS".data, "HINDUNILVR.NS".data, "ITC.NS".data, "SBIN.NS".data,
   "BHARTIARTL.NS".data, "KOTAKBANK.NS".data, "LT.NS".data, "AXISBANK.NS".data,
   "ASIANPAINT.NS".data, "MARUTI.NS".data, "SUNPHARMA.NS".data, "TITAN.NS".data,
   "WIPRO.NS".data, "TATAMOTORS.NS".data, "BAJFINANCE.NS".data, "M&M.NS".data,
   "NESTLEIND.NS".data, "HCLTECH.NS".data, "ULTRACEMCO.NS".data, "ONGC.NS".data,
   "POWERGRID.NS".data, "NTPC.NS".data, "JSWSTEEL.NS".data, "TATASTEEL.NS".data,
   "ADANIENT.NS".data, "ADANIPORTS.NS".data]

/-! ### Provider model and `get_stock_data` -/

/-- One row of the 1-day history frame returned by `ticker.history(period='1d')`.
Pandas columns of a single frame share its row index, so the source's
per-column emptiness checks (`history['Open'].empty` etc.) all coincide with
`history.empty`, which this row-list model captures with a single match. -/
structure HistRow where
  closeP : ℚ
  openP : ℚ
  highP : ℚ
  lowP : ℚ
  volume : ℤ
deriving DecidableEq

/-- The fields of `ticker.info` the code reads (`info.get(...)`); `none`
models an absent dict key. -/
structure TickerInfo where
  previousClose : Option ℚ
  longName : Option Str
  marketCap : Option ℤ
  sector : Option Str
  industry : Option Str
deriving DecidableEq

/-- What one upstream call to yfinance yields. -/
structure ProviderData where
  info : TickerInfo
  history : List HistRow
deriving DecidableEq

/-- Model of Python `round(x, 2)` on exact rationals. -/
def round2 (x : ℚ) : ℚ := ((round (x * 100) : ℤ) : ℚ) / 100

/-- The assembled quote dict (`result` in `get_stock_data`).  The dict key
`'open'` is a Lean keyword, hence the field name `openPrice`. -/
structure Quote where
  symbol : Str
  name : Str
  price : ℚ
  change : ℚ
  changePercent : ℚ
  openPrice : ℚ
  high : ℚ
  low : ℚ
  volume : ℤ
  marketCap : ℤ
  sector : Str
  industry : Str
deriving DecidableEq

/-- The cache key `f"stock_{symbol}"`. -/
def stockKey (symbol : Str) : Str := "stock_".data ++ symbol

/-- Outcome of one `get_stock_data` call: the returned value, the cache
after the call, and whether the upstream provider was consulted (the
source consults yfinance exactly when the cache lookup misses). -/
structure StockFetch where
  result : Option Quote
  cache : Cache Quote
  providerCalled : Bool

/-- `get_stock_data(symbol)`: cache check, upstream call, quote assembly,
cache store.  `provider` is the opaque upstream response for this call;
`.error` models a raised exception (caught, logged and turned into `None`
by the source's `except` clause). -/
def get_stock_data (c : Cache Quote) (symbol : Str)
    (provider : Except Unit ProviderData) (now : ℚ) : StockFetch :=
  match get_cached c (stockKey symbol) now with
  | some q => ⟨some q, c, false⟩
  | none =>
    match provider with
    | .error _ => ⟨none, c, true⟩
    | .ok pd =>
      match pd.history.getLast? with
      | none => ⟨none, c, true⟩
      | some row =>
        let current_price := row.closeP
        let prev_close := pd.info.previousClose.getD current_price
        let change := current_price - prev_close
        let change_percent := if prev_close ≠ 0 then change / prev_close * 100 else 0
        let result : Quote :=
          { symbol := symbol
            name := pd.info.longName.getD symbol
            price := round2 current_price
            change := round2 change
            changePercent := round2 change_percent
            openPrice := round2 row.openP
            high := round2 row.highP
            low := round2 row.lowP
            volume := row.volume
            marketCap := pd.info.marketCap.getD 0
            sector := pd.info.sector.getD "N/A".data
            industry := pd.info.industry.getD "N/A".data }
        ⟨some result, set_cached c (stockKey symbol) result now, true⟩

/-! ### Concurrent fan-out (`fetch_stocks_concurrent`) -/

/-- `fetch_stocks_concurrent(symbols)`: one fetch per symbol, keeping the
non-`None` results (`if data: results.append(data)`).  `fetch` abstracts
`get_stock_data` at the cache/provider state of this request; the
`as_completed` collection order is nondeterministic in the source and the
properties below are insensitive to it. -/
def fetch_stocks_concurrent (fetch : Str → Option Quote) (symbols : List Str) :
    List Quote :=
  symbols.filterMap fetch

/-! ### `/api/market-status` -/

/-- The boolean condition `market_open` computed by the route, as a function
of the IST wall-clock components it reads: `now.weekday()` (Monday = 0),
`now.time().hour`, `now.time().minute`. -/
def market_open (weekday hour minute : ℕ) : Bool :=
  decide (weekday < 5) &&
    ((hour == 9 && decide (15 ≤ minute)) ||
     (decide (9 < hour) && decide (hour < 15)) ||
     (hour == 15 && decide (minute ≤ 30)))

/-- The body of the `/api/market-status` response. -/
structure MarketStatus where
  isOpen : Bool
  message : Str

/-- `market_status()`: pure computation over the current IST clock. -/
def market_status (weekday hour minute : ℕ) : MarketStatus :=
  let mo := market_open weekday hour minute
  ⟨mo, if mo then "Market is open".data else "Market is closed".data⟩

/-! ### Aggregate responses and views -/

/-- The shared aggregate response shape `{success, count, data, timestamp}`. -/
structure Response (α : Type) where
  success : Bool
  count : ℕ
  data : List α
  timestamp : ℚ

/-- One entry of the indices response data. -/
structure IndexEntry where
  name : Str
  symbol : Str
  price : ℚ
  change : ℚ
  changePercent : ℚ
  timestamp : ℚ

/-- `symbol_to_name.get(data['symbol'], data['symbol'])`: map a fetched
symbol back to its index name, defaulting to the symbol itself. -/
def symbol_to_name (sym : Str) : Str :=
  match NSE_INDICES.find? (fun p => p.2 == sym) with
  | some p => p.1
  | none => sym

/-- The fresh (cache-miss) response body of `/api/indices`. -/
def build_indices_response (results : List Quote) (now : ℚ) : Response IndexEntry :=
  let indices_data := results.map (fun d =>
    { name := symbol_to_name d.symbol
      symbol := d.symbol
      price := d.price
      change := d.change
      changePercent := d.changePercent
      timestamp := now : IndexEntry })
  ⟨true, indices_data.length, indices_data, now⟩

/-- `get_indices()`: response cache around the fresh build over the index
symbols (`list(NSE_INDICES.values())`). -/
def get_indices (c : Cache (Response IndexEntry)) (fetch : Str → Option Quote)
    (now : ℚ) : Response IndexEntry × Cache (Response IndexEntry) :=
  match get_cached c "indices_response".data now with
  | some r => (r, c)
  | none =>
    let r := build_indices_response
      (fetch_stocks_concurrent fetch (NSE_INDICES.map (fun p => p.2))) now
    (r, set_cached c "indices_response".data r now)

/-- The fresh (cache-miss) response body of `/api/stocks`:
`stocks_data.sort(key=lambda x: abs(x['changePercent']), reverse=True)`. -/
def build_stocks_response (results : List Quote) (now : ℚ) : Response Quote :=
  let stocks_data := results.mergeSort
    (fun a b => decide (|b.changePercent| ≤ |a.changePercent|))
  ⟨true, stocks_data.length, stocks_data, now⟩

/-- `get_stocks()`: response cache around the fresh build over
`NIFTY_50_STOCKS[:20]`. -/
def get_stocks (c : Cache (Response Quote)) (fetch : Str → Option Quote)
    (now : ℚ) : Response Quote × Cache (Response Quote) :=
  match get_cached c "stocks_response".data now with
  | some r => (r, c)
  | none =>
    let r := build_stocks_response
      (fetch_stocks_concurrent fetch (NIFTY_50_STOCKS.take 20)) now
    (r, set_cached c "stocks_response".data r now)

/-- The fresh (cache-miss) response body of `/api/gainers`: keep
`changePercent > 0`, sort descending, truncate to 10. -/
def build_gainers_response (all_stocks : List Quote) (now : ℚ) : Response Quote :=
  let stocks_data := (all_stocks.filter (fun s => decide (0 < s.changePercent))).mergeSort
    (fun a b => decide (b.changePercent ≤ a.changePercent))
  ⟨true, (stocks_data.take 10).length, stocks_data.take 10, now⟩

/-- `get_gainers()`: response cache around the fresh build over
`NIFTY_50_STOCKS[:30]`. -/
def get_gainers (c : Cache (Response Quote)) (fetch : Str → Option Quote)
    (now : ℚ) : Response Quote × Cache (Response Quote) :=
  match get_cached c "gainers_response".data now with
  | some r => (r, c)
  | none =>
    let r := build_gainers_response
      (fetch_stocks_concurrent fetch (NIFTY_50_STOCKS.take 30)) now
    (r, set_cached c "gainers_response".data r now)

/-- The fresh (cache-miss) response body of `/api/losers`: keep
`changePercent < 0`, sort ascending, truncate to 10. -/
def build_losers_response (all_stocks : List Quote) (now : ℚ) : Response Quote :=
  let stocks_data := (all_stocks.filter (fun s => decide (s.changePercent < 0))).mergeSort
    (fun a b => decide (a.changePercent ≤ b.changePercent))
  ⟨true, (stocks_data.take 10).length, stocks_data.take 10, now⟩

/-- `get_losers()`: response cache around the fresh build over
`NIFTY_50_STOCKS[:30]`. -/
def get_losers (c : Cache (Response Quote)) (fetch : Str → Option Quote)
    (now : ℚ) : Response Quote × Cache (Response Quote) :=
  match get_cached c "losers_response".data now with
  | some r => (r, c)
  | none =>
    let r := build_losers_response
      (fetch_stocks_concurrent fetch (NIFTY_50_STOCKS.take 30)) now
    (r, set_cached c "losers_response".data r now)

/-! ### `/api/stock/<symbol>` -/

/-- Symbol normalization: `if not symbol.endswith('.NS') and not
symbol.endswith('.BO'): symbol = f"{symbol}.NS"`. -/
def normalize_symbol (s : Str) : Str :=
  if !(pyEndsWith s ".NS".data) && !(pyEndsWith s ".BO".data) then s ++ ".NS".data
  else s

/-- Body of the single-stock response (`error` is populated only on the
failure branch). -/
structure SingleStockResponse where
  success : Bool
  data : Option Quote
  error : Option Str

/-- `get_single_stock(symbol)`: normalize, fetch directly, and return the
body together with the HTTP status code (Flask defaults to 200; the
failure branch returns 404 explicitly). -/
def get_single_stock (symbol : Str) (fetch : Str → Option Quote) :
    SingleStockResponse × ℕ :=
  match fetch (normalize_symbol symbol) with
  | some d => (⟨true, some d, none⟩, 200)
  | none => (⟨false, none, some "Stock not found or data unavailable".data⟩, 404)

/-! ### `/api/search/<query>` -/

/-- The symbols of the master list matched by a query:
`[s for s in NIFTY_50_STOCKS if query in s.upper()]` after
`query = query.upper()`. -/
def search_matching (query : Str) : List Str :=
  NIFTY_50_STOCKS.filter (fun s => substrIn (pyUpper query) (pyUpper s))

/-- Body of the search response. -/
structure SearchResponse where
  success : Bool
  query : Str
  count : ℕ
  data : List Quote

/-- `search_stocks(query)`: filter the master list, fan-out only over the
matches, and skip the fan-out entirely when nothing matches.  The route
reads and writes no cache; the cache argument is threaded through
untouched, and the boolean records whether the fan-out was invoked. -/
def search_stocks (c : Cache SearchResponse) (query : Str)
    (fetch : Str → Option Quote) : SearchResponse × Cache SearchResponse × Bool :=
  let q := pyUpper query
  let matching_symbols := search_matching query
  let results :=
    if matching_symbols.isEmpty then []
    else fetch_stocks_concurrent fetch matching_symbols
  (⟨true, q, results.length, results⟩, c, !matching_symbols.isEmpty)

/-! ### Auxiliary definitions for the verification -/

/-- `round2` rounds to an integer number of hundredths within a hundredth
of its argument. -/
def isRounded2 (y x : ℚ) : Prop := (∃ n : ℤ, y = n / 100) ∧ |y - x| ≤ 1 / 100

/-- Sample history row for concrete witnesses. -/
def sampleRow : HistRow := ⟨100, 1, 2, 3, 4⟩

/-- Sample provider response with every optional info field absent. -/
def samplePD : ProviderData := ⟨⟨none, none, none, none, none⟩, [sampleRow]⟩

/-- Sample quote with a positive change percentage. -/
def sampleGainQ : Quote :=
  ⟨"G.NS".data, "G".data, 1, 1, 5, 1, 1, 1, 0, 0, "N/A".data, "N/A".data⟩

/-! ### Helper lemmas -/

theorem startsWithL_iff (n h : Str) : startsWithL n h = true ↔ ∃ t, h = n ++ t := by
  induction n generalizing h with
  | nil => simp [startsWithL]
  | cons a n ih =>
    cases h with
    | nil => simp [startsWithL]
    | cons b t =>
      simp only [startsWithL, Bool.and_eq_true, beq_iff_eq, ih, List.cons_append,
        List.cons.injEq]
      constructor
      · rintro ⟨rfl, u, rfl⟩; exact ⟨u, rfl, rfl⟩
      · rintro ⟨u, rfl, rfl⟩; exact ⟨rfl, u, rfl⟩

theorem substrIn_iff (n h : Str) : substrIn n h = true ↔ ∃ p q, h = p ++ n ++ q := by
  induction h with
  | nil =>
    simp only [substrIn, List.isEmpty_iff]
    constructor
    · rintro rfl; exact ⟨[], [], rfl⟩
    · rintro ⟨p, q, hpq⟩
      have h := congrArg List.length hpq
      simp [List.length_append] at h
      exact List.eq_nil_of_length_eq_zero (by omega)
  | cons b t ih =>
    simp only [substrIn, Bool.or_eq_true, startsWithL_iff, ih]
    constructor
    · rintro (⟨u, hu⟩ | ⟨p, q, rfl⟩)
      · exact ⟨[], u, by simpa using hu⟩
      · exact ⟨b :: p, q, rfl⟩
    · rintro ⟨p, q, hpq⟩
      cases p with
      | nil => exact Or.inl ⟨q, by simpa using hpq⟩
      | cons x p =>
        rw [List.cons_append, List.cons_append] at hpq
        exact Or.inr ⟨p, q, by injection hpq⟩

theorem pyEndsWith_iff (s suf : Str) : pyEndsWith s suf = true ↔ ∃ p, s = p ++ suf := by
  rw [pyEndsWith, List.isSuffixOf_iff_suffix]
  constructor
  · rintro ⟨p, rfl⟩; exact ⟨p, rfl⟩
  · rintro ⟨p, rfl⟩; exact ⟨p, rfl⟩

/-- Once a key reads as absent (missing or expired), it still reads as
absent at any later time, as long as nothing is stored in between. -/
theorem get_cached_none_mono {α : Type} (c : Cache α) (k : Str) (t t' : ℚ)
    (h : get_cached c k t = none) (hle : t ≤ t') : get_cached c k t' = none := by
  unfold get_cached at h ⊢
  cases hc : c k with
  | none => rfl
  | some v =>
    obtain ⟨d, ts⟩ := v
    rw [hc] at h
    simp only at h
    split at h
    · exact absurd h (by simp)
    · next hlt =>
      have : ¬ t' - ts < CACHE_TTL := by
        push_neg at hlt ⊢
        linarith
      simp [this]

/-- A merge sort keyed by a decidable total preorder is pairwise ordered. -/
theorem pairwise_mergeSort_rel {α : Type} (r : α → α → Prop) [DecidableRel r]
    (htrans : ∀ a b c, r a b → r b c → r a c) (htotal : ∀ a b, r a b ∨ r b a)
    (l : List α) : (l.mergeSort (fun a b => decide (r a b))).Pairwise r := by
  have h := List.sorted_mergeSort
    (fun a b c hab hbc =>
      decide_eq_true (htrans a b c (of_decide_eq_true hab) (of_decide_eq_true hbc)))
    (fun a b => by rcases htotal a b with h | h <;> simp [h]) l
  exact h.imp (fun hab => of_decide_eq_true hab)

theorem isRounded2_round2 (x : ℚ) : isRounded2 (round2 x) x := by
  refine ⟨⟨round (x * 100), rfl⟩, ?_⟩
  have h := abs_sub_round (x * 100)
  have heq : round2 x - x = (((round (x * 100) : ℤ) : ℚ) - x * 100) / 100 := by
    rw [round2]; ring
  rw [heq, abs_div, abs_sub_comm]
  have h100 : |(100 : ℚ)| = 100 := by norm_num
  rw [h100]
  linarith

/-! ### C1 -/

/-- C1: `set_cached(k, v)` at time `t0` followed by `get_cached(k)` at time
`t1` with no intervening put returns `v` when `t1 - t0 < CACHE_TTL` and
absent (`none`) when `CACHE_TTL ≤ t1 - t0`. -/
theorem ttl_correctness {α : Type} (c : Cache α) (k : Str) (v : α) (t0 t1 : ℚ) :
    (t1 - t0 < CACHE_TTL → get_cached (set_cached c k v t0) k t1 = some v) ∧
    (CACHE_TTL ≤ t1 - t0 → get_cached (set_cached c k v t0) k t1 = none) := by
  have hk : set_cached c k v t0 k = some (v, t0) := by simp [set_cached]
  constructor
  · intro h
    simp [get_cached, hk, h]
  · intro h
    simp [get_cached, hk, not_lt.mpr h]

/-- Witness for C1 at concrete inputs. -/
theorem ttl_correctness_witness :
    get_cached (set_cached (emptyCache : Cache ℕ) "k".data 7 0) "k".data 1 = some 7 ∧
    get_cached (set_cached (emptyCache : Cache ℕ) "k".data 7 0) "k".data 61 = none :=
  ⟨(ttl_correctness emptyCache "k".data 7 0 1).1 (by norm_num [CACHE_TTL]),
   (ttl_correctness emptyCache "k".data 7 0 61).2 (by norm_num [CACHE_TTL])⟩

/-! ### C2 -/

/-- C2: in `get_stock_data`, a zero (or absent, hence falsy) provider
`previousClose` yields `changePercent = 0` — the computation is total, no
division fault can occur — and a nonzero `previousClose` yields
`changePercent = round((currentPrice - previousClose) / previousClose * 100, 2)`. -/
theorem changePercent_zero_guard (c : Cache Quote) (symbol : Str)
    (pd : ProviderData) (now : ℚ) (row : HistRow)
    (hmiss : get_cached c (stockKey symbol) now = none)
    (hlast : pd.history.getLast? = some row) :
    ∃ q, (get_stock_data c symbol (Except.ok pd) now).result = some q ∧
      (pd.info.previousClose = some 0 ∨ pd.info.previousClose = none →
        q.changePercent = 0) ∧
      (∀ pc, pd.info.previousClose = some pc → pc ≠ 0 →
        q.changePercent = round2 ((row.closeP - pc) / pc * 100)) := by
  simp only [get_stock_data, hmiss, hlast]
  refine ⟨_, rfl, ?_, ?_⟩
  · rintro (h | h) <;> simp [h, round2]
  · intro pc hpc hne
    simp [hpc, hne]

/-- Witness for C2 at concrete inputs (previousClose = 0, one history row). -/
theorem changePercent_zero_guard_witness :
    ∃ q, (get_stock_data (emptyCache : Cache Quote) "X".data
        (Except.ok ⟨⟨some 0, none, none, none, none⟩, [⟨100, 1, 2, 3, 4⟩]⟩) 0).result =
        some q ∧
      ((⟨⟨some 0, none, none, none, none⟩, [⟨100, 1, 2, 3, 4⟩]⟩ :
          ProviderData).info.previousClose = some 0 ∨
        (⟨⟨some 0, none, none, none, none⟩, [⟨100, 1, 2, 3, 4⟩]⟩ :
          ProviderData).info.previousClose = none →
        q.changePercent = 0) ∧
      (∀ pc, (⟨⟨some 0, none, none, none, none⟩, [⟨100, 1, 2, 3, 4⟩]⟩ :
          ProviderData).info.previousClose = some pc → pc ≠ 0 →
        q.changePercent = round2 (((⟨100, 1, 2, 3, 4⟩ : HistRow).closeP - pc) / pc * 100)) :=
  changePercent_zero_guard emptyCache "X".data _ 0 _ rfl rfl

/-! ### C7 -/

/-- C7: every quote assembled on provider success has price, change,
changePercent, open, high and low rounded to 2 decimal places (an integer
number of hundredths within a hundredth of the raw value); volume and
marketCap are integers (`ℤ`-typed fields), marketCap defaulting to 0 when
the provider omits it; sector and industry default to `"N/A"`; and the
display name defaults to the raw symbol when the provider has no name. -/
theorem quote_field_shape (c : Cache Quote) (symbol : Str) (pd : ProviderData)
    (now : ℚ) (row : HistRow)
    (hmiss : get_cached c (stockKey symbol) now = none)
    (hlast : pd.history.getLast? = some row) :
    ∃ q, (get_stock_data c symbol (Except.ok pd) now).result = some q ∧
      isRounded2 q.price row.closeP ∧
      isRounded2 q.change (row.closeP - pd.info.previousClose.getD row.closeP) ∧
      isRounded2 q.changePercent
        (if pd.info.previousClose.getD row.closeP ≠ 0 then
          (row.closeP - pd.info.previousClose.getD row.closeP) /
            pd.info.previousClose.getD row.closeP * 100
        else 0) ∧
      isRounded2 q.openPrice row.openP ∧
      isRounded2 q.high row.highP ∧
      isRounded2 q.low row.lowP ∧
      q.volume = row.volume ∧
      q.marketCap = pd.info.marketCap.getD 0 ∧
      q.sector = pd.info.sector.getD "N/A".data ∧
      q.industry = pd.info.industry.getD "N/A".data ∧
      q.name = pd.info.longName.getD symbol := by
  simp only [get_stock_data, hmiss, hlast]
  exact ⟨_, rfl, isRounded2_round2 _, isRounded2_round2 _, isRounded2_round2 _,
    isRounded2_round2 _, isRounded2_round2 _, isRounded2_round2 _,
    rfl, rfl, rfl, rfl, rfl⟩

/-- Witness for C7 at concrete inputs (provider omits every optional field). -/
theorem quote_field_shape_witness :
    ∃ q, (get_stock_data (emptyCache : Cache Quote) "X".data
        (Except.ok samplePD) 0).result = some q ∧
      isRounded2 q.price sampleRow.closeP ∧
      isRounded2 q.change (sampleRow.closeP - samplePD.info.previousClose.getD sampleRow.closeP) ∧
      isRounded2 q.changePercent
        (if samplePD.info.previousClose.getD sampleRow.closeP ≠ 0 then
          (sampleRow.closeP - samplePD.info.previousClose.getD sampleRow.closeP) /
            samplePD.info.previousClose.getD sampleRow.closeP * 100
        else 0) ∧
      isRounded2 q.openPrice sampleRow.openP ∧
      isRounded2 q.high sampleRow.highP ∧
      isRounded2 q.low sampleRow.lowP ∧
      q.volume = sampleRow.volume ∧
      q.marketCap = samplePD.info.marketCap.getD 0 ∧
      q.sector = samplePD.info.sector.getD "N/A".data ∧
      q.industry = samplePD.info.industry.getD "N/A".data ∧
      q.name = samplePD.info.longName.getD "X".data :=
  quote_field_shape emptyCache "X".data samplePD 0 sampleRow rfl rfl

/-! ### C5 -/

/-- C5: on a cache miss, an empty provider history or a provider exception
makes `get_stock_data` return absent (the failure is absorbed, never
propagated) and leaves the cache unchanged at every key, so a subsequent
call for the same symbol at any later time consults the provider again
instead of reusing a cached absence. -/
theorem no_cache_on_miss (c : Cache Quote) (symbol : Str)
    (provider provider2 : Except Unit ProviderData) (now now2 : ℚ)
    (hmiss : get_cached c (stockKey symbol) now = none)
    (hfail : provider = Except.error () ∨
      ∃ pd, provider = Except.ok pd ∧ pd.history = [])
    (hle : now ≤ now2) :
    (get_stock_data c symbol provider now).result = none ∧
    (get_stock_data c symbol provider now).cache = c ∧
    (get_stock_data ((get_stock_data c symbol provider now).cache) symbol
      provider2 now2).providerCalled = true := by
  have hfirst : get_stock_data c symbol provider now = ⟨none, c, true⟩ := by
    rcases hfail with rfl | ⟨pd, rfl, hh⟩
    · simp [get_stock_data, hmiss]
    · simp [get_stock_data, hmiss, hh]
  refine ⟨by rw [hfirst], by rw [hfirst], ?_⟩
  rw [hfirst]
  have hmiss2 : get_cached c (stockKey symbol) now2 = none :=
    get_cached_none_mono c (stockKey symbol) now now2 hmiss hle
  simp only [get_stock_data, hmiss2]
  cases provider2 with
  | error e => rfl
  | ok pd2 => cases hl : pd2.history.getLast? <;> simp [hl]

/-- Witness for C5 at concrete inputs (empty cache, empty history). -/
theorem no_cache_on_miss_witness :
    (get_stock_data (emptyCache : Cache Quote) "X".data
      (Except.ok ⟨⟨none, none, none, none, none⟩, []⟩) 0).result = none ∧
    (get_stock_data (emptyCache : Cache Quote) "X".data
      (Except.ok ⟨⟨none, none, none, none, none⟩, []⟩) 0).cache = emptyCache ∧
    (get_stock_data ((get_stock_data (emptyCache : Cache Quote) "X".data
        (Except.ok ⟨⟨none, none, none, none, none⟩, []⟩) 0).cache) "X".data
      (Except.error ()) 1).providerCalled = true :=
  no_cache_on_miss emptyCache "X".data
    (Except.ok ⟨⟨none, none, none, none, none⟩, []⟩) (Except.error ()) 0 1
    rfl (Or.inr ⟨_, rfl, rfl⟩) (by norm_num)

/-! ### C4 -/

/-- C4: the fan-out returns exactly the successful quotes — its length is
the number of symbols whose fetch succeeds, and its members are exactly
the values of successful fetches — for every fetcher, so no failing subset
can abort or pollute the batch. -/
theorem fanout_completeness (fetch : Str → Option Quote) (symbols : List Str) :
    (fetch_stocks_concurrent fetch symbols).length =
      (symbols.filter (fun s => (fetch s).isSome)).length ∧
    ∀ q, q ∈ fetch_stocks_concurrent fetch symbols ↔ ∃ s ∈ symbols, fetch s = some q := by
  constructor
  · rw [← List.countP_eq_length_filter]
    induction symbols with
    | nil => rfl
    | cons a t ih =>
      simp only [fetch_stocks_concurrent, List.filterMap_cons, List.countP_cons] at ih ⊢
      cases h : fetch a <;> simp [h, ih]
  · intro q
    exact List.mem_filterMap

/-! ### C3 -/

/-- C3: over any one fetched stock set, every gainers entry has
`changePercent > 0` and the list is sorted descending by `changePercent`,
every losers entry has `changePercent < 0` and the list is sorted
ascending (most negative first), no quote appears in both lists, and each
list has at most 10 entries. -/
theorem gainers_losers_partition (quotes : List Quote) (now : ℚ) :
    (∀ q ∈ (build_gainers_response quotes now).data, 0 < q.changePercent) ∧
    (build_gainers_response quotes now).data.Pairwise
      (fun a b => b.changePercent ≤ a.changePercent) ∧
    (∀ q ∈ (build_losers_response quotes now).data, q.changePercent < 0) ∧
    (build_losers_response quotes now).data.Pairwise
      (fun a b => a.changePercent ≤ b.changePercent) ∧
    (∀ q, q ∈ (build_gainers_response quotes now).data →
      q ∉ (build_losers_response quotes now).data) ∧
    (build_gainers_response quotes now).data.length ≤ 10 ∧
    (build_losers_response quotes now).data.length ≤ 10 := by
  have hgmem : ∀ q ∈ (build_gainers_response quotes now).data, 0 < q.changePercent := by
    intro q hq
    have h1 := List.take_subset 10 _ hq
    rw [List.mem_mergeSort, List.mem_filter] at h1
    exact of_decide_eq_true h1.2
  have hlmem : ∀ q ∈ (build_losers_response quotes now).data, q.changePercent < 0 := by
    intro q hq
    have h1 := List.take_subset 10 _ hq
    rw [List.mem_mergeSort, List.mem_filter] at h1
    exact of_decide_eq_true h1.2
  refine ⟨hgmem, ?_, hlmem, ?_, ?_, ?_, ?_⟩
  · exact (pairwise_mergeSort_rel (fun a b : Quote => b.changePercent ≤ a.changePercent)
      (fun a b c hab hbc => le_trans hbc hab)
      (fun a b => le_total b.changePercent a.changePercent) _).sublist
      (List.take_sublist _ _)
  · exact (pairwise_mergeSort_rel (fun a b : Quote => a.changePercent ≤ b.changePercent)
      (fun a b c hab hbc => le_trans hab hbc)
      (fun a b => le_total a.changePercent b.changePercent) _).sublist
      (List.take_sublist _ _)
  · intro q hg hl
    exact absurd (hlmem q hl) (not_lt.mpr (le_of_lt (hgmem q hg)))
  · simp only [build_gainers_response, List.length_take]
    omega
  · simp only [build_losers_response, List.length_take]
    omega

/-! ### C6 -/

/-- C6: `isOpen` holds iff the IST weekday is Monday–Friday and the time
lies within 09:15–15:30 inclusive, together with the boundary cases
Saturday 10:00 (closed), Monday 09:14 (closed), Monday 09:15 (open),
Monday 15:30 (open), Monday 15:31 (closed). -/
theorem market_status_correct :
    (∀ weekday hour minute : ℕ, minute < 60 →
      ((market_status weekday hour minute).isOpen = true ↔
        weekday < 5 ∧ 9 * 60 + 15 ≤ hour * 60 + minute ∧
          hour * 60 + minute ≤ 15 * 60 + 30)) ∧
    (market_status 5 10 0).isOpen = false ∧
    (market_status 0 9 14).isOpen = false ∧
    (market_status 0 9 15).isOpen = true ∧
    (market_status 0 15 30).isOpen = true ∧
    (market_status 0 15 31).isOpen = false := by
  refine ⟨?_, by decide, by decide, by decide, by decide, by decide⟩
  intro weekday hour minute hm
  simp only [market_status, market_open, Bool.and_eq_true, Bool.or_eq_true,
    decide_eq_true_eq, beq_iff_eq]
  omega

/-- Witness for C6 at a concrete time (Monday 09:15). -/
theorem market_status_correct_witness :
    (15 : ℕ) < 60 ∧
      ((market_status 0 9 15).isOpen = true ↔
        0 < 5 ∧ 9 * 60 + 15 ≤ 9 * 60 + 15 ∧ 9 * 60 + 15 ≤ 15 * 60 + 30) :=
  ⟨by decide, market_status_correct.1 0 9 15 (by decide)⟩

/-! ### C8 -/

/-- C8: the single-stock lookup appends `.NS` exactly when the symbol ends
with neither `.NS` nor `.BO` (`INFY` is queried as `INFY.NS`, `INFY.BO` is
left alone), and returns a 404 with `success = false` exactly when the
fetch of the normalized symbol is absent, a `success = true` body wrapping
the quote otherwise. -/
theorem single_stock_lookup (s : Str) (fetch : Str → Option Quote) :
    ((¬ (∃ p, s = p ++ ".NS".data) ∧ ¬ (∃ p, s = p ++ ".BO".data)) →
      normalize_symbol s = s ++ ".NS".data) ∧
    (((∃ p, s = p ++ ".NS".data) ∨ (∃ p, s = p ++ ".BO".data)) →
      normalize_symbol s = s) ∧
    normalize_symbol "INFY".data = "INFY.NS".data ∧
    normalize_symbol "INFY.BO".data = "INFY.BO".data ∧
    (((get_single_stock s fetch).1.success = false ∧
        (get_single_stock s fetch).2 = 404) ↔
      fetch (normalize_symbol s) = none) ∧
    (∀ q, fetch (normalize_symbol s) = some q →
      (get_single_stock s fetch).1.success = true ∧
      (get_single_stock s fetch).1.data = some q) := by
  refine ⟨fun h => ?_, fun h => ?_, by decide, by decide, ?_, ?_⟩
  · have h1 : pyEndsWith s ".NS".data = false := by
      cases hv : pyEndsWith s ".NS".data
      · rfl
      · exact absurd ((pyEndsWith_iff s ".NS".data).mp hv) h.1
    have h2 : pyEndsWith s ".BO".data = false := by
      cases hv : pyEndsWith s ".BO".data
      · rfl
      · exact absurd ((pyEndsWith_iff s ".BO".data).mp hv) h.2
    simp [normalize_symbol, h1, h2]
  · rcases h with h | h
    · simp [normalize_symbol, (pyEndsWith_iff s ".NS".data).mpr h]
    · simp [normalize_symbol, (pyEndsWith_iff s ".BO".data).mpr h]
  · cases hf : fetch (normalize_symbol s) <;> simp [get_single_stock, hf]
  · intro q hq
    simp [get_single_stock, hq]

/-- Witness for C8: a fetcher that finds nothing yields the 404 branch. -/
theorem single_stock_lookup_witness :
    (get_single_stock "INFY".data (fun _ => none)).1.success = false ∧
    (get_single_stock "INFY".data (fun _ => none)).2 = 404 :=
  (single_stock_lookup "INFY".data (fun _ => none)).2.2.2.2.1.mpr rfl

/-! ### C9 -/

/-- C9: search selects exactly the master-list symbols whose uppercased
form contains the uppercased query as a substring (`"TATA"` selects
exactly TATAMOTORS.NS and TATASTEEL.NS), threads the cache through
untouched, returns empty data without invoking the fan-out when nothing
matches, and fan-out-fetches exactly the matches otherwise. -/
theorem search_scoping (c : Cache SearchResponse) (query : Str)
    (fetch : Str → Option Quote) :
    (∀ s, s ∈ search_matching query ↔
      s ∈ NIFTY_50_STOCKS ∧ ∃ p q', pyUpper s = p ++ pyUpper query ++ q') ∧
    search_matching "TATA".data = ["TATAMOTORS.NS".data, "TATASTEEL.NS".data] ∧
    (search_stocks c query fetch).2.1 = c ∧
    (search_matching query = [] →
      (search_stocks c query fetch).1.data = [] ∧
      (search_stocks c query fetch).2.2 = false) ∧
    (search_matching query ≠ [] →
      (search_stocks c query fetch).1.data =
        fetch_stocks_concurrent fetch (search_matching query) ∧
      (search_stocks c query fetch).2.2 = true) := by
  refine ⟨?_, by decide, rfl, fun h => ?_, fun h => ?_⟩
  · intro s
    rw [search_matching, List.mem_filter]
    constructor
    · rintro ⟨h1, h2⟩; exact ⟨h1, (substrIn_iff _ _).mp h2⟩
    · rintro ⟨h1, h2⟩; exact ⟨h1, (substrIn_iff _ _).mpr h2⟩
  · simp [search_stocks, h]
  · have hne : (search_matching query).isEmpty = false := by
      cases hm : search_matching query
      · exact absurd hm h
      · rfl
    simp [search_stocks, hne]

/-- Witness for C9: a query matching nothing returns empty data with no
fan-out. -/
theorem search_scoping_witness :
    (search_stocks (emptyCache : Cache SearchResponse) "ZZZZ".data
      (fun _ => none)).1.data = [] ∧
    (search_stocks (emptyCache : Cache SearchResponse) "ZZZZ".data
      (fun _ => none)).2.2 = false :=
  (search_scoping emptyCache "ZZZZ".data (fun _ => none)).2.2.2.1 (by decide)

/-! ### C10 -/

/-- C10: every freshly built response of the indices, stocks, gainers,
losers and search views has `success = true` and a `count` equal to the
length of its `data` sequence, whatever the underlying fetches produced. -/
theorem fresh_response_invariant (results quotes : List Quote) (now : ℚ)
    (c : Cache SearchResponse) (query : Str) (fetch : Str → Option Quote) :
    ((build_indices_response results now).success = true ∧
      (build_indices_response results now).count =
        (build_indices_response results now).data.length) ∧
    ((build_stocks_response results now).success = true ∧
      (build_stocks_response results now).count =
        (build_stocks_response results now).data.length) ∧
    ((build_gainers_response quotes now).success = true ∧
      (build_gainers_response quotes now).count =
        (build_gainers_response quotes now).data.length) ∧
    ((build_losers_response quotes now).success = true ∧
      (build_losers_response quotes now).count =
        (build_losers_response quotes now).data.length) ∧
    ((search_stocks c query fetch).1.success = true ∧
      (search_stocks c query fetch).1.count =
        (search_stocks c query fetch).1.data.length) :=
  ⟨⟨rfl, rfl⟩, ⟨rfl, rfl⟩, ⟨rfl, rfl⟩, ⟨rfl, rfl⟩, ⟨rfl, rfl⟩⟩

/-- Witness for C3 at a concrete one-element fetched set. -/
theorem gainers_losers_partition_witness :
    0 < sampleGainQ.changePercent ∧
    (build_gainers_response [sampleGainQ] 0).data.length ≤ 10 :=
  ⟨(gainers_losers_partition [sampleGainQ] 0).1 sampleGainQ
      (by norm_num [build_gainers_response, sampleGainQ, List.filter, List.mergeSort]),
    (gainers_losers_partition [sampleGainQ] 0).2.2.2.2.2.1⟩
